import Mathlib

/-!
Shallow embedding of the live broadcast core of the location-tracker server
(`server.go`): the in-memory per-identity history store, the report (ingest)
handler, the history-query handler, and the websocket broadcast loop.

Modelling conventions:
* `Location` mirrors the Go struct `Location` (fields Phone, Token, Lat, Lon,
  IP, When).  The server never performs arithmetic on coordinates — it only
  decodes, stores and re-encodes them — so the numeric carrier is taken to be
  `Int`, which suffices for every concrete input considered here.
* The global `store` (`map[string][]Location`, missing key = nil slice) is a
  total function `String → List Location` defaulting to `[]`.
* `json.NewDecoder(r.Body).Decode(&loc)` is an external library call; its
  outcome is the input `decoded : Option Location` (`none` = decode error,
  `some loc` = the decoded struct).
* `r.Header.Get("Date")` is the input `dateHeader` (`""` when absent) and
  `nowISO()` is the input `now`.
* A websocket client is a `Client` with an identifier and the list of samples
  successfully written to it, in write order.  `conn.WriteJSON` either
  succeeds (appending the sample to `recv`) or fails; which connections fail
  on a given broadcast is the oracle `fail : Nat → Bool`.  On failure the Go
  loop closes the connection and deletes it from the client set, which the
  embedding models by dropping the client from the list.
-/

namespace NuLoc

/-- Go struct `Location` from server.go. -/
structure Location where
  phone : String
  token : String
  lat   : Int
  lon   : Int
  ip    : String
  when  : String
deriving Repr, DecidableEq

/-- The retention bound: `if len(store[loc.Phone]) > 200`. -/
def retentionBound : Nat := 200

/-- The trimming step of `reportHandler`:
`if len(...) > 200 { store[...] = store[...][len(...)-200:] }`. -/
def trimSeq (l : List Location) : List Location :=
  if l.length > retentionBound then l.drop (l.length - retentionBound) else l

/-- The global `store   = map[string][]Location{}`; a missing key reads as the
nil slice, i.e. `[]`. -/
abbrev Store := String → List Location

def emptyStore : Store := fun _ => []

/-- The store mutation performed by `reportHandler` under `stMutex`:
append to `store[loc.Phone]`, then trim to the last 200. -/
def storeAppend (s : Store) (loc : Location) : Store :=
  fun p => if p = loc.phone then trimSeq (s loc.phone ++ [loc]) else s p

/-- A sequence of store mutations (sequential `reportHandler` calls). -/
def appendMany (s : Store) (locs : List Location) : Store :=
  locs.foldl storeAppend s

/-- A websocket client: an identifier standing for the `*websocket.Conn`
pointer, and the samples successfully delivered to it, in write order. -/
structure Client where
  cid  : Nat
  recv : List Location
deriving Repr, DecidableEq

/-- The `broadcast` loop of server.go: for each registered client attempt
`WriteJSON(loc)`; on error close the connection and delete the client,
otherwise the sample is delivered.  `fail c` says whether the write on
connection `c` errors during this broadcast. -/
def broadcast (fail : Nat → Bool) (loc : Location) (cs : List Client) : List Client :=
  cs.filterMap fun c =>
    if fail c.cid then none else some { c with recv := c.recv ++ [loc] }

/-- The server's shared mutable state: the history store and the client set. -/
structure ServerState where
  store   : Store
  clients : List Client

def initState : ServerState := ⟨emptyStore, []⟩

/-- Outcome of `reportHandler`: HTTP 400 "invalid json", or HTTP 200 with
body `{"status":"ok"}`.  These are the only exits of the handler. -/
inductive ReportResult where
  | invalidJson
  | ok
deriving Repr, DecidableEq

/-- `loc.When = fmt.Sprintf("%s", r.Header.Get("Date")); if loc.When == ""
{ loc.When = nowISO() }` — the decoded body's `when` field is overwritten
unconditionally. -/
def normalizeWhen (dateHeader now : String) : String :=
  if dateHeader = "" then now else dateHeader

/-- `reportHandler`: decode the body (outcome `decoded`); on error reply 400
and return; otherwise overwrite the timestamp, append to the store with
trimming, broadcast to the clients, and reply 200 ok. -/
def reportHandler (decoded : Option Location) (dateHeader now : String)
    (fail : Nat → Bool) (s : ServerState) : ServerState × ReportResult :=
  match decoded with
  | none => (s, ReportResult.invalidJson)
  | some loc0 =>
      let loc := { loc0 with when := normalizeWhen dateHeader now }
      ({ store := storeAppend s.store loc, clients := broadcast fail loc s.clients },
        ReportResult.ok)

/-- `getHandler`: read `store[phone]` under the read lock and encode
`{"phone": phone, "locations": locs}`.  It never errors. -/
def getHandler (s : ServerState) (phone : String) : String × List Location :=
  (phone, s.store phone)

/-- Registration of a new websocket client in `wsHandler`
(`clients[conn] = true`). -/
def subscribe (c : Client) (s : ServerState) : ServerState :=
  { s with clients := s.clients ++ [c] }

/-- Removal of a client (`delete(clients, conn)`), as done on read error in
`wsHandler` and on write error in `broadcast`. -/
def unsubscribe (cid : Nat) (s : ServerState) : ServerState :=
  { s with clients := s.clients.filter fun c => c.cid ≠ cid }

/-- A sequence of `broadcast` calls, one per accepted report: each step is
the published sample together with the write-failure oracle for that call. -/
def publishRun (steps : List (Location × (Nat → Bool))) (cs : List Client) : List Client :=
  steps.foldl (fun acc st => broadcast st.2 st.1 acc) cs

/-! ### Retention lemmas -/

theorem trimSeq_eq_rtake (l : List Location) : trimSeq l = l.rtake retentionBound := by
  unfold trimSeq List.rtake
  split
  · rfl
  · rw [Nat.sub_eq_zero_of_le (Nat.le_of_not_lt (by assumption)), List.drop_zero]

theorem take_append_take {α : Type _} (n : Nat) (x y : List α) :
    (x ++ y.take n).take n = (x ++ y).take n := by
  rw [List.take_append_eq_append_take, List.take_append_eq_append_take,
    List.take_take, Nat.min_eq_left (Nat.sub_le n x.length)]

theorem trimSeq_append_left (a b : List Location) :
    trimSeq (trimSeq a ++ b) = trimSeq (a ++ b) := by
  simp only [trimSeq_eq_rtake, List.rtake_eq_reverse_take_reverse, List.reverse_append,
    List.reverse_reverse]
  rw [take_append_take]

theorem trimSeq_append_of_le (x y : List Location) (h : retentionBound ≤ y.length) :
    trimSeq (x ++ y) = trimSeq y := by
  simp only [trimSeq_eq_rtake, List.rtake_eq_reverse_take_reverse, List.reverse_append]
  rw [List.take_append_of_le_length (by simpa using h)]

theorem storeAppend_same (s : Store) (loc : Location) (p : String) (h : loc.phone = p) :
    storeAppend s loc p = trimSeq (s p ++ [loc]) := by
  subst h; simp [storeAppend]

theorem storeAppend_other (s : Store) (loc : Location) (q : String) (h : q ≠ loc.phone) :
    storeAppend s loc q = s q := by
  simp [storeAppend, h]

theorem appendMany_same (p : String) (l : Location) (locs : List Location) (s : Store)
    (h : ∀ x ∈ l :: locs, x.phone = p) :
    appendMany s (l :: locs) p = trimSeq (s p ++ (l :: locs)) := by
  induction locs generalizing s l with
  | nil =>
      simp only [appendMany, List.foldl_cons, List.foldl_nil]
      exact storeAppend_same s l p (h l (List.mem_cons_self l []))
  | cons l2 locs ih =>
      have h1 : l.phone = p := h l (List.mem_cons_self _ _)
      have step : appendMany s (l :: l2 :: locs) = appendMany (storeAppend s l) (l2 :: locs) := rfl
      rw [step, ih l2 (storeAppend s l) (fun x hx => h x (List.mem_cons_of_mem _ hx)),
        storeAppend_same s l p h1, trimSeq_append_left]
      simp

theorem appendMany_other (q : String) (locs : List Location) (s : Store)
    (h : ∀ x ∈ locs, x.phone ≠ q) :
    appendMany s locs q = s q := by
  induction locs generalizing s with
  | nil => rfl
  | cons l locs ih =>
      have step : appendMany s (l :: locs) = appendMany (storeAppend s l) locs := rfl
      rw [step, ih (storeAppend s l) (fun x hx => h x (List.mem_cons_of_mem _ hx)),
        storeAppend_other s l q (fun hq => h l (List.mem_cons_self _ _) hq.symm)]

theorem trimSeq_getLast (x : List Location) (a : Location) :
    (trimSeq (x ++ [a])).getLast? = some a := by
  rw [trimSeq_eq_rtake, List.rtake_eq_reverse_take_reverse, List.reverse_append]
  simp only [List.reverse_singleton, List.singleton_append]
  rw [show retentionBound = 199 + 1 from rfl, List.take_succ_cons,
    List.reverse_cons, List.getLast?_concat]

/-! ### Concrete inputs used by witnesses and counterexamples -/

def locA : Location := ⟨"A", "", 10, 20, "", "t1"⟩

def locB : Location := ⟨"A", "", 11, 21, "", "t2"⟩

/-- Decode of `{"identity":"", "lat":1, "lon":1}`: the unknown key `identity`
is ignored by `encoding/json`, so `Phone` keeps its zero value `""`. -/
def emptyPhoneBody : Location := ⟨"", "", 1, 1, "", ""⟩

/-- A body with out-of-range coordinates (lat 1000, lon 2000). -/
def hugeCoordBody : Location := ⟨"A", "", 1000, 2000, "", ""⟩

/-- A body that supplies its own `when` field. -/
def whenBody : Location := ⟨"A", "", 1, 2, "", "t1"⟩

def noFail : Nat → Bool := fun _ => false

def failTwo : Nat → Bool := fun n => n == 2

def manyA : List Location := List.replicate 201 locA

def c4steps : List (Location × (Nat → Bool)) := [(locA, noFail), (locB, noFail)]

/-! ### Claims -/

/-- C1: for every identity and every sequence of N sequential Appends to that
identity with N > 200, a subsequent Get for that identity returns exactly the
last 200 appended samples, in arrival order. -/
theorem C1_get_returns_last_200 (p : String) (locs : List Location) (s : ServerState)
    (hp : ∀ x ∈ locs, x.phone = p) (hn : locs.length > retentionBound) :
    (getHandler { s with store := appendMany s.store locs } p).2
      = locs.drop (locs.length - retentionBound) := by
  cases locs with
  | nil => simp [retentionBound] at hn
  | cons l t =>
      show appendMany s.store (l :: t) p = _
      rw [appendMany_same p l t s.store hp,
        trimSeq_append_of_le _ _ (Nat.le_of_lt hn)]
      unfold trimSeq
      rw [if_pos hn]

/-- Witness for C1 at 201 appends of the same sample to identity "A". -/
theorem C1_witness :
    (∀ x ∈ manyA, x.phone = "A") ∧ manyA.length > retentionBound ∧
      (getHandler { initState with store := appendMany initState.store manyA } "A").2
        = manyA.drop (manyA.length - retentionBound) :=
  ⟨fun x hx => by rw [List.eq_of_mem_replicate hx]; rfl,
   by norm_num [manyA, retentionBound],
   C1_get_returns_last_200 "A" manyA initState
     (fun x hx => by rw [List.eq_of_mem_replicate hx]; rfl)
     (by norm_num [manyA, retentionBound])⟩

/-- C2 counterexample: the decode of `{identity:"", lat:1, lon:1}` is accepted
with 200 ok and the store IS modified — there is no InvalidIdentity rejection
anywhere in reportHandler. -/
theorem C2_counterexample :
    (reportHandler (some emptyPhoneBody) "" "2026-01-01T00:00:00Z" noFail initState).2
        = ReportResult.ok ∧
      (reportHandler (some emptyPhoneBody) "" "2026-01-01T00:00:00Z" noFail initState).1.store ""
        ≠ initState.store "" := by
  decide

/-- C2 amended: reportHandler performs no identity validation; a parseable
body with empty identity is accepted with ok, stored under the empty-string
key, and broadcast like any other sample. -/
theorem C2_empty_identity_accepted (loc0 : Location) (dh now : String)
    (fail : Nat → Bool) (s : ServerState) (h : loc0.phone = "") :
    (reportHandler (some loc0) dh now fail s).2 = ReportResult.ok ∧
      (reportHandler (some loc0) dh now fail s).1.store ""
        = trimSeq (s.store "" ++ [{ loc0 with when := normalizeWhen dh now }]) ∧
      (reportHandler (some loc0) dh now fail s).1.clients
        = broadcast fail { loc0 with when := normalizeWhen dh now } s.clients := by
  refine ⟨rfl, ?_, rfl⟩
  exact storeAppend_same _ _ _ h

/-- Witness for the amended C2 at the concrete body `{identity:"", lat:1, lon:1}`. -/
theorem C2_witness :
    emptyPhoneBody.phone = "" ∧
      ((reportHandler (some emptyPhoneBody) "" "T" noFail initState).2 = ReportResult.ok ∧
        (reportHandler (some emptyPhoneBody) "" "T" noFail initState).1.store ""
          = trimSeq (initState.store ""
              ++ [{ emptyPhoneBody with when := normalizeWhen "" "T" }]) ∧
        (reportHandler (some emptyPhoneBody) "" "T" noFail initState).1.clients
          = broadcast noFail { emptyPhoneBody with when := normalizeWhen "" "T" }
              initState.clients) :=
  ⟨rfl, C2_empty_identity_accepted emptyPhoneBody "" "T" noFail initState rfl⟩

/-- C3 counterexample: the caller supplies `when = "t1"` in the body (and no
Date header); the stored sample carries the server's current instant, not
"t1" — the body-supplied timestamp is discarded. -/
theorem C3_counterexample :
    whenBody.when = "t1" ∧
      (reportHandler (some whenBody) "" "2026-01-01T00:00:00Z" noFail initState).1.store "A"
        = [{ whenBody with when := "2026-01-01T00:00:00Z" }] ∧
      ("2026-01-01T00:00:00Z" : String) ≠ "t1" := by
  decide

/-- C3 amended: reportHandler unconditionally overwrites the body's `when`:
the stored and broadcast sample carries the request's Date header when
nonempty, otherwise the current instant. -/
theorem C3_when_always_overwritten (loc0 : Location) (dh now : String)
    (fail : Nat → Bool) (s : ServerState) :
    (reportHandler (some loc0) dh now fail s).1.store loc0.phone
        = trimSeq (s.store loc0.phone
            ++ [{ loc0 with when := if dh = "" then now else dh }]) ∧
      (reportHandler (some loc0) dh now fail s).1.clients
        = broadcast fail { loc0 with when := if dh = "" then now else dh } s.clients := by
  refine ⟨?_, rfl⟩
  exact storeAppend_same _ _ _ rfl

/-- C4: a subscriber that never suffers a send failure receives exactly the
published samples, in global publish order, with no reordering, duplication
or drop. -/
theorem C4_delivery_in_publish_order (steps : List (Location × (Nat → Bool)))
    (cs : List Client) (c : Client) (hc : c ∈ cs)
    (hok : ∀ st ∈ steps, st.2 c.cid = false) :
    ({ c with recv := c.recv ++ steps.map Prod.fst } : Client) ∈ publishRun steps cs := by
  induction steps generalizing cs c with
  | nil => simpa using hc
  | cons st steps ih =>
      have hd : st.2 c.cid = false := hok st (List.mem_cons_self _ _)
      have hmem : ({ c with recv := c.recv ++ [st.1] } : Client) ∈ broadcast st.2 st.1 cs :=
        List.mem_filterMap.2 ⟨c, hc, by simp [hd]⟩
      have h2 := ih (broadcast st.2 st.1 cs) { c with recv := c.recv ++ [st.1] } hmem
        (fun st2 hst2 => hok st2 (List.mem_cons_of_mem _ hst2))
      simpa [publishRun, List.append_assoc] using h2

/-- Witness for C4: one subscriber, two publishes, received in order. -/
theorem C4_witness :
    ({ cid := 1, recv := [locA, locB] } : Client)
      ∈ publishRun c4steps [{ cid := 1, recv := [] }] := by
  have h := C4_delivery_in_publish_order c4steps [{ cid := 1, recv := [] }]
    { cid := 1, recv := [] } (by simp)
    (by
      intro st hst
      simp only [c4steps, List.mem_cons, List.not_mem_nil, or_false] at hst
      rcases hst with rfl | rfl <;> rfl)
  simpa [c4steps] using h

/-- C5: on a broadcast, every subscriber whose send fails is removed from the
client set, every subscriber whose send succeeds receives the sample and
stays, and the publishing report still gets a 200 ok — no error reaches the
reporter. -/
theorem C5_send_failure_drops_subscriber (fail : Nat → Bool) (loc : Location)
    (cs : List Client) :
    (∀ c ∈ broadcast fail loc cs, fail c.cid = false) ∧
      (∀ c ∈ cs, fail c.cid = false →
        ({ c with recv := c.recv ++ [loc] } : Client) ∈ broadcast fail loc cs) ∧
      (∀ dh now sto,
        (reportHandler (some loc) dh now fail { store := sto, clients := cs }).2
          = ReportResult.ok) := by
  refine ⟨?_, ?_, fun dh now sto => rfl⟩
  · intro c hc
    rcases List.mem_filterMap.1 hc with ⟨a, ha, hfa⟩
    cases hfl : fail a.cid
    · rw [hfl] at hfa
      simp only [Bool.false_eq_true, if_false, Option.some.injEq] at hfa
      rw [← hfa]
      exact hfl
    · rw [hfl] at hfa
      simp at hfa
  · intro c hc h
    exact List.mem_filterMap.2 ⟨c, hc, by simp [h]⟩

/-- Witness for C5: two subscribers, the write to cid 2 fails: subscriber 1
receives the sample, subscriber 2 is gone from the set, the reporter gets ok. -/
theorem C5_witness :
    ({ cid := 1, recv := [locA] } : Client)
        ∈ broadcast failTwo locA [{ cid := 1, recv := [] }, { cid := 2, recv := [] }] ∧
      ¬(({ cid := 2, recv := [locA] } : Client)
        ∈ broadcast failTwo locA [{ cid := 1, recv := [] }, { cid := 2, recv := [] }]) ∧
      (reportHandler (some locA) "" "T" failTwo
          { store := emptyStore,
            clients := [{ cid := 1, recv := [] }, { cid := 2, recv := [] }] }).2
        = ReportResult.ok :=
  ⟨(C5_send_failure_drops_subscriber failTwo locA _).2.1 { cid := 1, recv := [] }
      (by simp) rfl,
   fun hmem => by
      simpa [failTwo] using
        (C5_send_failure_drops_subscriber failTwo locA
          [{ cid := 1, recv := [] }, { cid := 2, recv := [] }]).1 _ hmem,
   (C5_send_failure_drops_subscriber failTwo locA
      [{ cid := 1, recv := [] }, { cid := 2, recv := [] }]).2.2 "" "T" emptyStore⟩

/-- C6 counterexample: a body with lat 1000, lon 2000 is accepted with ok and
stored unflagged — reportHandler does no coordinate range validation. -/
theorem C6_counterexample :
    (reportHandler (some hugeCoordBody) "" "T" noFail initState).2 = ReportResult.ok ∧
      ((reportHandler (some hugeCoordBody) "" "T" noFail initState).1.store "A").getLast?
        = some { hugeCoordBody with when := "T" } ∧
      ¬(({ hugeCoordBody with when := "T" } : Location).lat ≤ 90 ∧
        ({ hugeCoordBody with when := "T" } : Location).lon ≤ 180) := by
  decide

/-- C6 amended: reportHandler accepts every parseable body regardless of its
coordinate values; the sample is stored as the newest entry for its identity
with the submitted coordinates unchanged and unflagged. -/
theorem C6_no_range_validation (loc0 : Location) (dh now : String)
    (fail : Nat → Bool) (s : ServerState) :
    (reportHandler (some loc0) dh now fail s).2 = ReportResult.ok ∧
      ((reportHandler (some loc0) dh now fail s).1.store loc0.phone).getLast?
        = some { loc0 with when := normalizeWhen dh now } := by
  refine ⟨rfl, ?_⟩
  show (storeAppend s.store _ loc0.phone).getLast? = _
  rw [storeAppend_same _ _ _ rfl, trimSeq_getLast]

/-- C7: a request whose body does not parse is rejected with the 400
"invalid json" client error, and neither the store nor the client set is
touched. -/
theorem C7_malformed_rejected (dh now : String) (fail : Nat → Bool) (s : ServerState) :
    (reportHandler none dh now fail s).2 = ReportResult.invalidJson ∧
      (reportHandler none dh now fail s).1.store = s.store ∧
      (reportHandler none dh now fail s).1.clients = s.clients :=
  ⟨rfl, rfl, rfl⟩

/-- C8: for an identity never appended to, getHandler returns the empty
sequence, never an error. -/
theorem C8_unknown_identity_empty (locs : List Location) (p : String) (cs : List Client)
    (h : ∀ x ∈ locs, x.phone ≠ p) :
    (getHandler { store := appendMany emptyStore locs, clients := cs } p).2 = [] := by
  show appendMany emptyStore locs p = []
  rw [appendMany_other p locs emptyStore h]
  rfl

/-- Witness for C8: after one append to "A", a Get for "B" is empty. -/
theorem C8_witness :
    (∀ x ∈ [locA], x.phone ≠ "B") ∧
      (getHandler { store := appendMany emptyStore [locA], clients := [] } "B").2 = [] :=
  ⟨by decide, C8_unknown_identity_empty [locA] "B" [] (by decide)⟩

/-- C10: an accepted report with identity p changes only p's entry in the
store — one sample appended at the end followed by trimming; every other
identity is untouched, and the very sample stored is the one handed to
broadcast. -/
theorem C10_frame (loc0 : Location) (dh now : String) (fail : Nat → Bool)
    (s : ServerState) (q : String) (hq : q ≠ loc0.phone) :
    (reportHandler (some loc0) dh now fail s).1.store q = s.store q ∧
      (reportHandler (some loc0) dh now fail s).1.store loc0.phone
        = trimSeq (s.store loc0.phone ++ [{ loc0 with when := normalizeWhen dh now }]) ∧
      (reportHandler (some loc0) dh now fail s).1.clients
        = broadcast fail { loc0 with when := normalizeWhen dh now } s.clients ∧
      (reportHandler (some loc0) dh now fail s).2 = ReportResult.ok :=
  ⟨storeAppend_other _ _ _ hq, storeAppend_same _ _ _ rfl, rfl, rfl⟩

/-- Witness for C10: a report for "A" leaves "B"'s history untouched. -/
theorem C10_witness :
    ("B" : String) ≠ locA.phone ∧
      (reportHandler (some locA) "" "T" noFail initState).1.store "B"
        = initState.store "B" :=
  ⟨by decide, (C10_frame locA "" "T" noFail initState "B" (by decide)).1⟩

end NuLoc
